import Mathlib

/-!
Shallow embedding of the NGS SDK alignment coordinate model
(`ngs/Alignment.hpp` and the specification of its supporting
CIGAR parser, geometry derivation and projection engine).

The repository ships only the public header for `ngs::Alignment`; the
bodies of the declared operations live outside the sampled sources.
Every operation below is therefore modelled from the specification's
description of the data model (CigarOp sequences, AlignmentGeometry,
the ProjectionEngine walk) and from the doc comments of the header.
-/

namespace ngs

/-- Modelled from the spec: the CIGAR operation kinds.  The spec's data
model lists Match, Insertion, Deletion, SoftClip, HardClip, Skip and
Padding, and its external-interface section requires the textual codes
`M I D N S H P = X`; `=` (Equal) and `X` (Diff) are the match/mismatch
refinements of `M`. -/
inductive CigarOpKind where
  | Match
  | Insertion
  | Deletion
  | Skip
  | SoftClip
  | HardClip
  | Padding
  | Equal
  | Diff
  deriving DecidableEq

/-- Modelled from the spec: one decoded CIGAR operation, a pair of an
operation kind and a non-negative length. -/
structure CigarOp where
  kind : CigarOpKind
  length : Nat
  deriving DecidableEq

/-- Modelled from the spec: the error taxonomy of the error-handling
design section. -/
inductive NgsError where
  | MalformedCigarError
  | InvalidCigarStructureError
  | PositionOutOfRangeError
  | PropertyNotAvailableError
  | MateNotResolvableError
  | AccessFailure
  deriving DecidableEq

/-- Modelled from the spec: ops that consume reference bases are
Match/Mismatch (`M`, `=`, `X`), Deletion and Skip. -/
def consumesRef : CigarOpKind → Bool
  | .Match => true
  | .Equal => true
  | .Diff => true
  | .Deletion => true
  | .Skip => true
  | _ => false

/-- Modelled from the spec: ops that consume read bases are
Match/Mismatch (`M`, `=`, `X`), Insertion and SoftClip. -/
def consumesRead : CigarOpKind → Bool
  | .Match => true
  | .Equal => true
  | .Diff => true
  | .Insertion => true
  | .SoftClip => true
  | _ => false

/-- Reference bases consumed by one op. -/
def refConsume (op : CigarOp) : Nat :=
  if consumesRef op.kind then op.length else 0

/-- Read bases consumed by one op. -/
def readConsume (op : CigarOp) : Nat :=
  if consumesRead op.kind then op.length else 0

/-- Specification-side measure: total reference bases consumed by an op
sequence. -/
def refSum (ops : List CigarOp) : Nat := (ops.map refConsume).sum

/-- Specification-side measure: total read bases consumed by an op
sequence. -/
def readSum (ops : List CigarOp) : Nat := (ops.map readConsume).sum

/-- Modelled from the spec: single-pass accumulator computing the
reference-projected length of a CigarOp sequence (the geometry
derivation is specified as one O(ops) pass). -/
def refLenAux : List CigarOp → Nat → Nat
  | [], acc => acc
  | op :: rest, acc => refLenAux rest (acc + refConsume op)

/-- Modelled from the spec: `referenceProjectedLength` = sum of lengths
of ops that consume reference, computed in a single pass. -/
def referenceProjectedLength (ops : List CigarOp) : Nat := refLenAux ops 0

/-- Modelled from the spec: `getAlignmentLength` returns the projected
length of the Alignment upon the Reference. -/
def getAlignmentLength (ops : List CigarOp) : Nat := referenceProjectedLength ops

/-- Modelled from the spec: one step of the ProjectionEngine walk.
Given the accumulated `refC`/`readC` cursors, decide whether the
relative reference position `rel` is answered by this op:
reference-consuming ops answer when `rel` falls inside their reference
span (one base for match/mismatch, a zero-length projection for
deletion/skip); ops that do not consume reference answer when `rel`
equals the current reference cursor, projecting onto the whole op. -/
def hitOp (rel refC readC : Nat) (op : CigarOp) : Option (Nat × Nat) :=
  if consumesRef op.kind then
    if refC ≤ rel ∧ rel < refC + op.length then
      if consumesRead op.kind then some (readC + (rel - refC), 1)
      else some (readC, 0)
    else none
  else
    if rel = refC then some (readC, op.length) else none

/-- Modelled from the spec: the ProjectionEngine walk over the CigarOp
sequence, accumulating the reference and read cursors until the
containing op is found. -/
def projectWalk : List CigarOp → Nat → Nat → Nat → Option (Nat × Nat)
  | [], _, _, _ => none
  | op :: rest, rel, refC, readC =>
    match hitOp rel refC readC op with
    | some r => some r
    | none => projectWalk rest rel (refC + refConsume op) (readC + readConsume op)

/-- Modelled from the spec: the reference→read projection query.  Let
`rel = refPos - referenceStartPos`; positions outside
`[0, referenceProjectedLength)` fail with `PositionOutOfRangeError`,
and in-range positions are answered by the cursor walk (which, as
proved below, always finds a containing op in range, so the final
fallback arm is unreachable). -/
def projectPair (ops : List CigarOp) (referenceStartPos refPos : Int) :
    Except NgsError (Nat × Nat) :=
  let rel : Int := refPos - referenceStartPos
  if rel < 0 then .error .PositionOutOfRangeError
  else if (referenceProjectedLength ops : Int) ≤ rel then .error .PositionOutOfRangeError
  else
    match projectWalk ops rel.toNat 0 0 with
    | some r => .ok r
    | none => .error .PositionOutOfRangeError

/-- The packed 64-bit encoding of a projection range used by the C++
API: upper 32 bits the read offset, lower 32 bits the projection
length. -/
def packRange (readOffset projectionLength : Nat) : Nat :=
  (readOffset % 2 ^ 32) * 2 ^ 32 + projectionLength % 2 ^ 32

/-- Modelled from the spec: mate identity data carried by an Alignment
when present. -/
structure MateInfo where
  mateAlignmentId : List Char
  mateReferenceSpec : List Char
  mateIsReversed : Bool
  deriving DecidableEq

/-- Modelled from the spec: the Alignment aggregate — identity,
reference identity and 0-based start position, mapping quality,
orientation, the decoded CigarOp sequence, the record's raw phred
quality scores backing the fragment-quality view, and the optional
mate data. -/
structure Alignment where
  alignmentId : List Char
  referenceSpec : List Char
  referenceStartPos : Int
  mappingQuality : Int
  isReversed : Bool
  cigar : List CigarOp
  fragmentPhredQualities : List Nat
  mate : Option MateInfo

/-- Modelled from the spec: `getReferencePositionProjectionRange`
projects an absolute 0-based reference position onto the Alignment,
returning the `(readOffset, projectionLength)` range. -/
def Alignment.getReferencePositionProjectionRange (a : Alignment) (refPos : Int) :
    Except NgsError (Nat × Nat) :=
  projectPair a.cigar a.referenceStartPos refPos

/-- The packed 64-bit form of the projection query as declared in the
header. -/
def Alignment.getReferencePositionProjectionRangePacked (a : Alignment) (refPos : Int) :
    Except NgsError Nat :=
  (a.getReferencePositionProjectionRange refPos).map fun r => packRange r.1 r.2

/-- Modelled from the spec: the textual code of each CIGAR operation
kind, drawn from `{M,I,D,N,S,H,P,=,X}`. -/
def kindToChar : CigarOpKind → Char
  | .Match => 'M'
  | .Insertion => 'I'
  | .Deletion => 'D'
  | .Skip => 'N'
  | .SoftClip => 'S'
  | .HardClip => 'H'
  | .Padding => 'P'
  | .Equal => '='
  | .Diff => 'X'

/-- Modelled from the spec: decoding a CIGAR operation code character. -/
def charToKind (c : Char) : Option CigarOpKind :=
  if c = 'M' then some .Match
  else if c = 'I' then some .Insertion
  else if c = 'D' then some .Deletion
  else if c = 'N' then some .Skip
  else if c = 'S' then some .SoftClip
  else if c = 'H' then some .HardClip
  else if c = 'P' then some .Padding
  else if c = '=' then some .Equal
  else if c = 'X' then some .Diff
  else none

/-- Modelled from the spec: combine the pending decimal length and a
decoded op code into a CigarOp; a missing length or an unknown code is
malformed. -/
def finishOp : Option Nat → Option CigarOpKind → Option CigarOp
  | some n, some k => some ⟨k, n⟩
  | _, _ => none

/-- Modelled from the spec: the CIGAR parser, a single left-to-right
scan over the text.  `pending` holds the decimal length being read
(`none` when no digit has been seen since the last op code); a
non-digit character must be an op code preceded by a length, otherwise
the input is malformed.  Malformed input fails with
`MalformedCigarError` and never produces a partial sequence. -/
def parseCigarAux : List Char → Option Nat → List CigarOp → Except NgsError (List CigarOp)
  | [], none, acc => .ok acc.reverse
  | [], some _, _ => .error .MalformedCigarError
  | c :: cs, pending, acc =>
    if c.isDigit then
      parseCigarAux cs (some (pending.getD 0 * 10 + (c.toNat - 48))) acc
    else
      (finishOp pending (charToKind c)).elim (.error .MalformedCigarError)
        fun op => parseCigarAux cs none (op :: acc)

/-- Modelled from the spec: parse a textual CIGAR encoding into an
ordered CigarOp sequence. -/
def parseCigar (s : List Char) : Except NgsError (List CigarOp) :=
  parseCigarAux s none []

/-- The decimal digit characters. -/
def digitChar : Nat → Char
  | 0 => '0'
  | 1 => '1'
  | 2 => '2'
  | 3 => '3'
  | 4 => '4'
  | 5 => '5'
  | 6 => '6'
  | 7 => '7'
  | 8 => '8'
  | _ => '9'

/-- Decimal rendering of a natural number, most significant digit
first. -/
def natDigits (n : Nat) : List Char :=
  if _h : n < 10 then [digitChar n]
  else natDigits (n / 10) ++ [digitChar (n % 10)]
termination_by n
decreasing_by exact Nat.div_lt_self (by omega) (by omega)

/-- Modelled from the spec: render one CigarOp as its decimal length
followed by its single-character op code. -/
def renderOp (op : CigarOp) : List Char :=
  natDigits op.length ++ [kindToChar op.kind]

/-- Modelled from the spec: render a CigarOp sequence to text, one
`length`+`code` pair per op. -/
def renderCigar (ops : List CigarOp) : List Char :=
  (ops.map renderOp).flatten

/-- Modelled from the spec: collapse adjacent runs of the same
operation kind into a single op (the "short" rendering's merge). -/
def mergeAdjacent : List CigarOp → List CigarOp
  | [] => []
  | op :: rest =>
    match mergeAdjacent rest with
    | [] => [op]
    | op2 :: merged =>
      if op.kind = op2.kind then { kind := op.kind, length := op.length + op2.length } :: merged
      else op :: op2 :: merged

/-- Modelled from the spec: the clipped rendering variants omit
soft-clip and hard-clip ops. -/
def dropClips (ops : List CigarOp) : List CigarOp :=
  ops.filter fun op => !(op.kind = CigarOpKind.SoftClip ∨ op.kind = CigarOpKind.HardClip : Bool)

/-- Modelled from the spec: `getLongCigar` renders the op sequence
exactly, optionally omitting clip ops. -/
def getLongCigar (ops : List CigarOp) (clipped : Bool) : List Char :=
  renderCigar (if clipped then dropClips ops else ops)

/-- Modelled from the spec: `getShortCigar` renders the op sequence
with adjacent same-kind runs merged, optionally omitting clip ops. -/
def getShortCigar (ops : List CigarOp) (clipped : Bool) : List Char :=
  renderCigar (mergeAdjacent (if clipped then dropClips ops else ops))

/-- Modelled from the spec: derived, cached scalar properties of a
CigarOp sequence. -/
structure AlignmentGeometry where
  referenceProjectedLength : Nat
  leftClip : Nat
  rightClip : Nat
  isReversed : Bool
  deriving DecidableEq

/-- The soft-clip length contributed by an op standing at an edge of
the sequence: its length if it is a SoftClip, else 0. -/
def clipLen (op : CigarOp) : Nat :=
  if op.kind = CigarOpKind.SoftClip then op.length else 0

/-- Modelled from the spec: one pass over the ops after the first,
returning the trailing clip length and whether no SoftClip sits before
the last position. -/
def scanTail : List CigarOp → Nat × Bool
  | [] => (0, true)
  | op :: rest =>
    if rest.isEmpty then (clipLen op, true)
    else
      let r := scanTail rest
      (r.1, if op.kind = CigarOpKind.SoftClip then false else r.2)

/-- Modelled from the spec: derive the AlignmentGeometry from a CigarOp
sequence in one pass.  `leftClip`/`rightClip` are the lengths of the
leading/trailing SoftClip ops when present; a SoftClip anywhere else
fails with `InvalidCigarStructureError` and no geometry is produced.
`isReversed` is the externally supplied orientation flag. -/
def deriveGeometry : List CigarOp → Bool → Except NgsError AlignmentGeometry
  | [], rev => .ok ⟨0, 0, 0, rev⟩
  | first :: rest, rev =>
    if rest.isEmpty then .ok ⟨refConsume first, clipLen first, clipLen first, rev⟩
    else
      let r := scanTail rest
      if r.2 then
        .ok ⟨referenceProjectedLength (first :: rest), clipLen first, r.1, rev⟩
      else .error .InvalidCigarStructureError

/-- The clip edge selector of `getSoftClip`, as declared in the
header. -/
inductive ClipEdge where
  | clipLeft
  | clipRight
  deriving DecidableEq

/-- Modelled from the spec: `getSoftClip` reports the soft-clip length
at the requested edge, from the derived geometry. -/
def getSoftClip (ops : List CigarOp) (edge : ClipEdge) : Except NgsError Nat :=
  (deriveGeometry ops false).map fun g =>
    match edge with
    | .clipLeft => g.leftClip
    | .clipRight => g.rightClip

/-- Modelled from the spec: `hasMate` reports whether a mate exists; it
is a total boolean query, the sole accessor that never fails. -/
def Alignment.hasMate (a : Alignment) : Bool := a.mate.isSome

/-- Modelled from the spec: `getMateAlignmentId` fails with
`MateNotResolvableError` when no mate exists. -/
def Alignment.getMateAlignmentId (a : Alignment) : Except NgsError (List Char) :=
  match a.mate with
  | some m => .ok m.mateAlignmentId
  | none => .error .MateNotResolvableError

/-- Modelled from the spec: `getMateReferenceSpec` fails with
`MateNotResolvableError` when no mate exists. -/
def Alignment.getMateReferenceSpec (a : Alignment) : Except NgsError (List Char) :=
  match a.mate with
  | some m => .ok m.mateReferenceSpec
  | none => .error .MateNotResolvableError

/-- Modelled from the spec: `getMateIsReversedOrientation` fails with
`MateNotResolvableError` when no mate exists. -/
def Alignment.getMateIsReversedOrientation (a : Alignment) : Except NgsError Bool :=
  match a.mate with
  | some m => .ok m.mateIsReversed
  | none => .error .MateNotResolvableError

/-- Modelled from the spec: `getMateAlignment` resolves the mate record
through the owning collection's lookup and fails with
`MateNotResolvableError` when no mate exists or the lookup cannot
locate it. -/
def Alignment.getMateAlignment (a : Alignment)
    (lookupAlignment : List Char → Option Alignment) : Except NgsError Alignment :=
  match a.mate with
  | some m =>
    match lookupAlignment m.mateAlignmentId with
    | some mateRec => .ok mateRec
    | none => .error .MateNotResolvableError
  | none => .error .MateNotResolvableError

/-- Modelled from the spec: `getClippedFragmentQualities` returns the
fragment's phred quality values encoded as ASCII codes with an offset
of 33, as documented in the header. -/
def Alignment.getClippedFragmentQualities (a : Alignment) : List Nat :=
  a.fragmentPhredQualities.map fun q => q + 33

/-! ### Basic lemmas about the consumption measures -/

theorem refSum_nil : refSum [] = 0 := rfl

theorem refSum_cons (op : CigarOp) (l : List CigarOp) :
    refSum (op :: l) = refConsume op + refSum l := by
  simp [refSum]

theorem refSum_append (a b : List CigarOp) :
    refSum (a ++ b) = refSum a + refSum b := by
  simp [refSum]

theorem readSum_nil : readSum [] = 0 := rfl

theorem readSum_cons (op : CigarOp) (l : List CigarOp) :
    readSum (op :: l) = readConsume op + readSum l := by
  simp [readSum]

theorem readSum_append (a b : List CigarOp) :
    readSum (a ++ b) = readSum a + readSum b := by
  simp [readSum]

theorem refLenAux_eq (ops : List CigarOp) (acc : Nat) :
    refLenAux ops acc = acc + refSum ops := by
  induction ops generalizing acc with
  | nil => simp [refLenAux, refSum]
  | cons op rest ih => rw [refLenAux, ih, refSum_cons]; omega

theorem referenceProjectedLength_eq (ops : List CigarOp) :
    referenceProjectedLength ops = refSum ops := by
  rw [referenceProjectedLength, refLenAux_eq]; omega

/-! ### The projection walk -/

theorem projectWalk_append (pre rest : List CigarOp) (rel refC readC : Nat)
    (h : ∀ j, (hj : j < pre.length) →
      hitOp rel (refC + refSum (pre.take j)) (readC + readSum (pre.take j)) pre[j] = none) :
    projectWalk (pre ++ rest) rel refC readC
      = projectWalk rest rel (refC + refSum pre) (readC + readSum pre) := by
  induction pre generalizing refC readC with
  | nil => simp [refSum, readSum]
  | cons op pre ih =>
    have h0 : hitOp rel refC readC op = none := by
      have := h 0 (by simp)
      simpa [refSum, readSum] using this
    rw [List.cons_append, projectWalk, h0, refSum_cons, readSum_cons,
      ← Nat.add_assoc, ← Nat.add_assoc]
    apply ih
    intro j hj
    have := h (j + 1) (by simpa using Nat.succ_lt_succ hj)
    rw [List.take_succ_cons, refSum_cons, readSum_cons] at this
    rw [← Nat.add_assoc, ← Nat.add_assoc] at this
    simpa using this

theorem projectWalk_total (ops : List CigarOp) (rel refC readC : Nat)
    (h1 : refC ≤ rel) (h2 : rel < refC + refSum ops) :
    ∃ r, projectWalk ops rel refC readC = some r := by
  induction ops generalizing refC readC with
  | nil => rw [refSum_nil] at h2; omega
  | cons op rest ih =>
    cases hox : hitOp rel refC readC op with
    | some r => exact ⟨r, by rw [projectWalk, hox]⟩
    | none =>
      rw [refSum_cons] at h2
      rw [projectWalk, hox]
      rcases hcr : consumesRef op.kind with _ | _
      · have hc0 : refConsume op = 0 := by simp [refConsume, hcr]
        apply ih
        · omega
        · rw [hc0] at h2 ⊢; omega
      · have hcl : refConsume op = op.length := by simp [refConsume, hcr]
        have hge : refC + op.length ≤ rel := by
          by_contra hlt
          rw [hitOp, if_pos hcr, if_pos ⟨h1, by omega⟩] at hox
          split at hox <;> simp at hox
        apply ih
        · omega
        · rw [hcl] at h2 ⊢; omega

/-- Claim C4: the projection query fails with `PositionOutOfRangeError`
exactly when `rel = refPos - referenceStartPos` is negative or at least
`referenceProjectedLength`, and every in-range position is answered
without error. -/
theorem projection_error_iff (a : Alignment) (refPos : Int) :
    (a.getReferencePositionProjectionRange refPos
        = .error .PositionOutOfRangeError
      ↔ refPos - a.referenceStartPos < 0 ∨
        (referenceProjectedLength a.cigar : Int) ≤ refPos - a.referenceStartPos)
    ∧ ((∃ r, a.getReferencePositionProjectionRange refPos = .ok r)
      ↔ 0 ≤ refPos - a.referenceStartPos ∧
        refPos - a.referenceStartPos < (referenceProjectedLength a.cigar : Int)) := by
  rw [Alignment.getReferencePositionProjectionRange, projectPair]
  split
  · constructor
    · simp; omega
    · constructor
      · rintro ⟨r, hr⟩; simp at hr
      · intro hr; omega
  · split
    · constructor
      · simp; omega
      · constructor
        · rintro ⟨r, hr⟩; simp at hr
        · intro hr; omega
    · rename_i hneg hlen
      have h1 : 0 ≤ refPos - a.referenceStartPos := by omega
      have h2 : refPos - a.referenceStartPos
          < (referenceProjectedLength a.cigar : Int) := by omega
      obtain ⟨r, hr⟩ := projectWalk_total a.cigar (refPos - a.referenceStartPos).toNat 0 0
        (Nat.zero_le _) (by rw [← referenceProjectedLength_eq]; omega)
      rw [hr]
      constructor
      · simp; omega
      · constructor
        · intro _; omega
        · intro _; exact ⟨r, rfl⟩

theorem refSum_take_le (l : List CigarOp) (k : Nat) : refSum (l.take k) ≤ refSum l := by
  conv_rhs => rw [← List.take_append_drop k l]
  rw [refSum_append]
  omega

theorem refSum_take_succ (l : List CigarOp) (j : Nat) (hj : j < l.length) :
    refSum (l.take (j + 1)) = refSum (l.take j) + refConsume l[j] := by
  induction l generalizing j with
  | nil => simp at hj
  | cons o l ih =>
    cases j with
    | zero => simp [refSum]
    | succ j =>
      rw [List.take_succ_cons, List.take_succ_cons, refSum_cons, refSum_cons,
        List.getElem_cons_succ, ih j (by simpa using Nat.lt_of_succ_lt_succ hj)]
      omega

/-- If the walk's cursors reach `op` after skipping a run `pre` in which
no op answers the query, and `op` answers it, the projection query
returns that answer. -/
theorem projectPair_hit (pre : List CigarOp) (op : CigarOp) (post : List CigarOp)
    (start refPos : Int) (r : Nat × Nat)
    (h0 : 0 ≤ refPos - start)
    (hhi : refPos - start < (refSum (pre ++ op :: post) : Int))
    (hmono : (refSum pre : Int) ≤ refPos - start)
    (hnb : ∀ j, (hj : j < pre.length) → consumesRef pre[j].kind = false →
      refPos - start ≠ (refSum (pre.take j) : Int))
    (hhit : hitOp (refPos - start).toNat (refSum pre) (readSum pre) op = some r) :
    projectPair (pre ++ op :: post) start refPos = .ok r := by
  rw [projectPair]
  rw [if_neg (by omega)]
  rw [if_neg (by rw [referenceProjectedLength_eq]; omega)]
  have hskip := projectWalk_append pre (op :: post) (refPos - start).toNat 0 0 ?_
  · simp only [Nat.zero_add] at hskip
    rw [hskip, projectWalk, hhit]
  · intro j hj
    simp only [Nat.zero_add]
    rcases hcr : consumesRef pre[j].kind with _ | _
    · rw [hitOp, if_neg (by simp [hcr]), if_neg ?_]
      have := hnb j hj hcr
      omega
    · have hle : refSum (pre.take j) + pre[j].length ≤ refSum pre := by
        have h1 := refSum_take_succ pre j hj
        have h2 := refSum_take_le pre (j + 1)
        rw [refConsume, hcr] at h1
        simp at h1
        omega
      rw [hitOp, if_pos hcr, if_neg ?_]
      rintro ⟨-, hcontra⟩
      omega

/-- Claim C1: the projection of an in-range reference position is
characterized by the ProjectionEngine walk: writing the CigarOp
sequence as `pre ++ op :: post` with the walk's cursors
`refCursor = refSum pre`, `readCursor = readSum pre`, and no earlier op
capturing the query, then if `rel = refPos - referenceStartPos` falls
inside a Deletion/Skip op the result is `(readCursor, 0)`; if it falls
inside a Match/Mismatch op the result is
`(readCursor + (rel - refCursor), 1)`; and if it equals the refCursor
immediately before an Insertion the result is
`(readCursor, insertionLength)`, spanning the entire insertion. -/
theorem projection_walk_characterization (a : Alignment) (refPos : Int)
    (pre : List CigarOp) (op : CigarOp) (post : List CigarOp)
    (hsplit : a.cigar = pre ++ op :: post)
    (hnb : ∀ j, (hj : j < pre.length) → consumesRef pre[j].kind = false →
      refPos - a.referenceStartPos ≠ (refSum (pre.take j) : Int)) :
    ((op.kind = .Deletion ∨ op.kind = .Skip) →
      (refSum pre : Int) ≤ refPos - a.referenceStartPos →
      refPos - a.referenceStartPos < (refSum pre : Int) + op.length →
      a.getReferencePositionProjectionRange refPos = .ok (readSum pre, 0))
    ∧ ((op.kind = .Match ∨ op.kind = .Equal ∨ op.kind = .Diff) →
      (refSum pre : Int) ≤ refPos - a.referenceStartPos →
      refPos - a.referenceStartPos < (refSum pre : Int) + op.length →
      a.getReferencePositionProjectionRange refPos
        = .ok (readSum pre + ((refPos - a.referenceStartPos).toNat - refSum pre), 1))
    ∧ (op.kind = .Insertion →
      refPos - a.referenceStartPos = (refSum pre : Int) →
      refPos - a.referenceStartPos < (referenceProjectedLength a.cigar : Int) →
      a.getReferencePositionProjectionRange refPos = .ok (readSum pre, op.length)) := by
  refine ⟨?_, ?_, ?_⟩
  · intro hkind hlo hhi
    have hcr : consumesRef op.kind = true := by
      rcases hkind with hk | hk <;> rw [hk] <;> rfl
    have hcd : consumesRead op.kind = false := by
      rcases hkind with hk | hk <;> rw [hk] <;> rfl
    rw [Alignment.getReferencePositionProjectionRange, hsplit]
    apply projectPair_hit _ _ _ _ _ _ (by omega) ?_ hlo hnb
    · rw [hitOp, if_pos hcr, if_pos (by omega), hcd]
      rfl
    · rw [refSum_append, refSum_cons, refConsume, hcr]
      simp only [if_true]
      push_cast
      omega
  · intro hkind hlo hhi
    have hcr : consumesRef op.kind = true := by
      rcases hkind with hk | hk | hk <;> rw [hk] <;> rfl
    have hcd : consumesRead op.kind = true := by
      rcases hkind with hk | hk | hk <;> rw [hk] <;> rfl
    rw [Alignment.getReferencePositionProjectionRange, hsplit]
    apply projectPair_hit _ _ _ _ _ _ (by omega) ?_ hlo hnb
    · rw [hitOp, if_pos hcr, if_pos (by omega), hcd]
      rfl
    · rw [refSum_append, refSum_cons, refConsume, hcr]
      simp only [if_true]
      push_cast
      omega
  · intro hkind heq hlen
    have hcr : consumesRef op.kind = false := by rw [hkind]; rfl
    rw [Alignment.getReferencePositionProjectionRange, hsplit]
    rw [hsplit, referenceProjectedLength_eq] at hlen
    apply projectPair_hit _ _ _ _ _ _ (by omega) (by omega) (by omega) hnb
    rw [hitOp, if_neg (by simp [hcr]), if_pos (by omega)]

/-- A small fixture exercising all three walk branches: CIGAR 2M1D3I1M
at reference start 0. -/
def alnWalkExample : Alignment where
  alignmentId := []
  referenceSpec := []
  referenceStartPos := 0
  mappingQuality := 0
  isReversed := false
  cigar := [⟨.Match, 2⟩, ⟨.Deletion, 1⟩, ⟨.Insertion, 3⟩, ⟨.Match, 1⟩]
  fragmentPhredQualities := []
  mate := none

/-- Claim C1 (witness): the characterization applied to CIGAR 2M1D3I1M
at start 0 — position 2 inside the deletion gives (2,0), position 1
inside the match gives (1,1), position 3 at the insertion boundary
gives (2,3). -/
theorem projection_walk_characterization_witness :
    alnWalkExample.getReferencePositionProjectionRange 2 = .ok (2, 0)
    ∧ alnWalkExample.getReferencePositionProjectionRange 1 = .ok (1, 1)
    ∧ alnWalkExample.getReferencePositionProjectionRange 3 = .ok (2, 3) := by
  refine ⟨?_, ?_, ?_⟩
  · have h := (projection_walk_characterization alnWalkExample 2
      [⟨.Match, 2⟩] ⟨.Deletion, 1⟩ [⟨.Insertion, 3⟩, ⟨.Match, 1⟩] rfl
      (by decide)).1 (Or.inl rfl) (by decide) (by decide)
    exact h.trans rfl
  · have h := (projection_walk_characterization alnWalkExample 1
      [] ⟨.Match, 2⟩ [⟨.Deletion, 1⟩, ⟨.Insertion, 3⟩, ⟨.Match, 1⟩] rfl
      (by decide)).2.1 (Or.inl rfl) (by decide) (by decide)
    exact h.trans rfl
  · have h := (projection_walk_characterization alnWalkExample 3
      [⟨.Match, 2⟩, ⟨.Deletion, 1⟩] ⟨.Insertion, 3⟩ [⟨.Match, 1⟩] rfl
      (by decide)).2.2 rfl (by decide) (by decide)
    exact h.trans rfl

/-- The CigarOp sequence of CIGAR 3M2D3M. -/
def cigar3M2D3M : List CigarOp := [⟨.Match, 3⟩, ⟨.Deletion, 2⟩, ⟨.Match, 3⟩]

/-- An Alignment with CIGAR 3M2D3M starting at reference position 100. -/
def aln3M2D3M : Alignment where
  alignmentId := []
  referenceSpec := []
  referenceStartPos := 100
  mappingQuality := 0
  isReversed := false
  cigar := cigar3M2D3M
  fragmentPhredQualities := []
  mate := none

/-- Claim C2 (counterexample): for CIGAR 3M2D3M at reference start 100,
reference position 102 is the third matched base, so the projection
returns (2,1), not the (3,0) asserted by the claim; likewise position
104 is still inside the deletion, returning (3,0) rather than (3,1),
and position 107 is in range (the alignment consumes 8 reference
bases), returning (5,1) rather than failing. -/
theorem projection_3M2D3M_counterexample :
    aln3M2D3M.getReferencePositionProjectionRange 102 = .ok (2, 1)
    ∧ ((2, 1) : Nat × Nat) ≠ (3, 0)
    ∧ aln3M2D3M.getReferencePositionProjectionRange 104 = .ok (3, 0)
    ∧ ((3, 0) : Nat × Nat) ≠ (3, 1)
    ∧ aln3M2D3M.getReferencePositionProjectionRange 107 = .ok (5, 1) :=
  ⟨rfl, by decide, rfl, by decide, rfl⟩

/-- Claim C2 (amended): for CIGAR 3M2D3M at reference start 100 the
alignment spans reference positions [100,108); the projection returns
(0,1) at 100, (2,1) at 102, (3,0) at 103 and at 104 (inside the
deletion), (3,1) at 105, (5,1) at 107, and fails with
`PositionOutOfRangeError` at 108. -/
theorem projection_3M2D3M_table :
    parseCigar ['3', 'M', '2', 'D', '3', 'M'] = .ok cigar3M2D3M
    ∧ getAlignmentLength cigar3M2D3M = 8
    ∧ aln3M2D3M.getReferencePositionProjectionRange 100 = .ok (0, 1)
    ∧ aln3M2D3M.getReferencePositionProjectionRange 102 = .ok (2, 1)
    ∧ aln3M2D3M.getReferencePositionProjectionRange 103 = .ok (3, 0)
    ∧ aln3M2D3M.getReferencePositionProjectionRange 104 = .ok (3, 0)
    ∧ aln3M2D3M.getReferencePositionProjectionRange 105 = .ok (3, 1)
    ∧ aln3M2D3M.getReferencePositionProjectionRange 107 = .ok (5, 1)
    ∧ aln3M2D3M.getReferencePositionProjectionRange 108
        = .error .PositionOutOfRangeError :=
  ⟨rfl, rfl, rfl, rfl, rfl, rfl, rfl, rfl, rfl⟩

/-- The CigarOp sequence of CIGAR 2M3I2M. -/
def cigar2M3I2M : List CigarOp := [⟨.Match, 2⟩, ⟨.Insertion, 3⟩, ⟨.Match, 2⟩]

/-- An Alignment with CIGAR 2M3I2M starting at reference position 50. -/
def aln2M3I2M : Alignment where
  alignmentId := []
  referenceSpec := []
  referenceStartPos := 50
  mappingQuality := 0
  isReversed := false
  cigar := cigar2M3I2M
  fragmentPhredQualities := []
  mate := none

/-- Claim C3 (counterexample): for CIGAR 2M3I2M at reference start 50,
position 51 is the second matched base (`rel = 1` lies inside the
leading 2M), so the projection returns (1,1), not the (2,3) asserted
by the claim. -/
theorem projection_2M3I2M_counterexample :
    aln2M3I2M.getReferencePositionProjectionRange 51 = .ok (1, 1)
    ∧ ((1, 1) : Nat × Nat) ≠ (2, 3) :=
  ⟨rfl, by decide⟩

/-- Claim C3 (amended): for CIGAR 2M3I2M at reference start 50, the
insertion projection (2,3) — read offset 2, the full 3-base insertion
span — is returned at reference position 52, the position immediately
after the two matched bases; position 51 is still inside the match run
and returns (1,1). -/
theorem projection_2M3I2M_insertion :
    parseCigar ['2', 'M', '3', 'I', '2', 'M'] = .ok cigar2M3I2M
    ∧ aln2M3I2M.getReferencePositionProjectionRange 52 = .ok (2, 3)
    ∧ aln2M3I2M.getReferencePositionProjectionRange 51 = .ok (1, 1) :=
  ⟨rfl, rfl, rfl⟩

/-! ### Alignment length -/

theorem refSum_eq_filter_sum (ops : List CigarOp) :
    ((ops.filter fun op => consumesRef op.kind).map CigarOp.length).sum = refSum ops := by
  induction ops with
  | nil => rfl
  | cons op rest ih =>
    rw [refSum_cons, refConsume]
    rcases hcr : consumesRef op.kind with _ | _
    · rw [List.filter_cons_of_neg (by simp [hcr]), ih]
      simp
    · rw [List.filter_cons_of_pos (by simp [hcr]), List.map_cons, List.sum_cons, ih]
      simp

/-- Claim C5: for every successfully parsed CigarOp sequence, the sum
of the lengths of the reference-consuming ops (Match/Mismatch,
Deletion, Skip) equals `getAlignmentLength`; the sequence being an
immutable value, the equality is an invariant never invalidated after
construction. -/
theorem alignmentLength_invariant (s : List Char) (ops : List CigarOp)
    (_hparse : parseCigar s = .ok ops) :
    ((ops.filter fun op => consumesRef op.kind).map CigarOp.length).sum
      = getAlignmentLength ops := by
  rw [getAlignmentLength, referenceProjectedLength_eq, refSum_eq_filter_sum]

/-- Claim C5 (witness): the invariant at the parsed CIGAR 3M2D3M, whose
reference-consuming lengths sum to 8. -/
theorem alignmentLength_invariant_witness :
    ((cigar3M2D3M.filter fun op => consumesRef op.kind).map CigarOp.length).sum
      = getAlignmentLength cigar3M2D3M :=
  alignmentLength_invariant ['3', 'M', '2', 'D', '3', 'M'] cigar3M2D3M rfl

/-! ### Soft-clip structure and geometry -/

theorem scanTail_ok_iff (l : List CigarOp) :
    (scanTail l).2 = false ↔
      ∃ pre op post, l = pre ++ op :: post ∧ post ≠ []
        ∧ op.kind = CigarOpKind.SoftClip := by
  induction l with
  | nil =>
    constructor
    · intro h
      simp [scanTail] at h
    · rintro ⟨pre, op, post, h, -, -⟩
      exact absurd h (by simp)
  | cons a l ih =>
    cases l with
    | nil =>
      constructor
      · intro h
        simp [scanTail] at h
      · rintro ⟨pre, op, post, h, hpost, -⟩
        rcases pre with _ | ⟨x, pre⟩
        · rw [List.nil_append] at h
          obtain ⟨h1, h2⟩ := List.cons.inj h
          exact (hpost h2.symm).elim
        · rw [List.cons_append] at h
          obtain ⟨h1, h2⟩ := List.cons.inj h
          exact absurd h2.symm (by simp)
    | cons b l2 =>
      have hsnd : (scanTail (a :: b :: l2)).2
          = (if a.kind = CigarOpKind.SoftClip then false else (scanTail (b :: l2)).2) := by
        simp [scanTail]
      rw [hsnd]
      by_cases hk : a.kind = CigarOpKind.SoftClip
      · rw [if_pos hk]
        constructor
        · intro h
          exact ⟨[], a, b :: l2, rfl, by simp, hk⟩
        · intro h
          rfl
      · rw [if_neg hk, ih]
        constructor
        · rintro ⟨pre, op, post, h, hpost, hop⟩
          exact ⟨a :: pre, op, post, by rw [List.cons_append, h], hpost, hop⟩
        · rintro ⟨pre, op, post, h, hpost, hop⟩
          rcases pre with _ | ⟨x, pre⟩
          · rw [List.nil_append] at h
            obtain ⟨h1, h2⟩ := List.cons.inj h
            exact absurd (h1 ▸ hop) hk
          · rw [List.cons_append] at h
            obtain ⟨h1, h2⟩ := List.cons.inj h
            exact ⟨pre, op, post, h2, hpost, hop⟩

/-- Claim C7: geometry derivation fails with
`InvalidCigarStructureError` exactly when a SoftClip op stands neither
first nor last — i.e. the sequence splits as `pre ++ op :: post` with
`pre` and `post` both nonempty and `op` a SoftClip — so no geometry is
ever derived from such a sequence. -/
theorem geometry_interior_softclip_iff (ops : List CigarOp) (rev : Bool) :
    deriveGeometry ops rev = .error .InvalidCigarStructureError ↔
      ∃ pre op post, ops = pre ++ op :: post ∧ pre ≠ [] ∧ post ≠ []
        ∧ op.kind = CigarOpKind.SoftClip := by
  cases ops with
  | nil =>
    constructor
    · intro h
      simp [deriveGeometry] at h
    · rintro ⟨pre, op, post, h, -, -, -⟩
      exact absurd h (by simp)
  | cons first rest =>
    cases rest with
    | nil =>
      constructor
      · intro h
        simp [deriveGeometry] at h
      · rintro ⟨pre, op, post, h, hpre, hpost, -⟩
        rcases pre with _ | ⟨x, pre⟩
        · exact absurd rfl hpre
        · rw [List.cons_append] at h
          obtain ⟨h1, h2⟩ := List.cons.inj h
          exact absurd h2.symm (by simp)
    | cons b l2 =>
      have herr : deriveGeometry (first :: b :: l2) rev
          = (if (scanTail (b :: l2)).2
              then .ok ⟨referenceProjectedLength (first :: b :: l2), clipLen first,
                (scanTail (b :: l2)).1, rev⟩
              else .error .InvalidCigarStructureError) := by
        simp [deriveGeometry]
      rw [herr]
      by_cases hscan : (scanTail (b :: l2)).2 = true
      · rw [if_pos hscan]
        constructor
        · intro h
          exact absurd h (by simp)
        · rintro ⟨pre, op, post, h, hpre, hpost, hop⟩
          rcases pre with _ | ⟨x, pre⟩
          · exact absurd rfl hpre
          · rw [List.cons_append] at h
            obtain ⟨h1, h2⟩ := List.cons.inj h
            have hff := (scanTail_ok_iff (b :: l2)).2 ⟨pre, op, post, h2, hpost, hop⟩
            rw [hff] at hscan
            exact absurd hscan (by decide)
      · rw [if_neg hscan]
        have hfalse : (scanTail (b :: l2)).2 = false := by
          simpa using hscan
        obtain ⟨pre, op, post, h, hpost, hop⟩ := (scanTail_ok_iff (b :: l2)).1 hfalse
        constructor
        · intro h2
          exact ⟨first :: pre, op, post, by rw [List.cons_append, h], by simp, hpost, hop⟩
        · intro h2
          rfl

theorem scanTail_fst (l : List CigarOp) (h : l ≠ []) :
    (scanTail l).1 = (l.getLast?.map clipLen).getD 0 := by
  induction l with
  | nil => exact absurd rfl h
  | cons a l ih =>
    cases l with
    | nil => simp [scanTail]
    | cons b l2 =>
      have h1 : (scanTail (a :: b :: l2)).1 = (scanTail (b :: l2)).1 := by
        simp [scanTail]
      rw [h1, List.getLast?_cons_cons]
      exact ih (by simp)

/-- The CigarOp sequence of CIGAR 5S10M5S. -/
def cigar5S10M5S : List CigarOp := [⟨.SoftClip, 5⟩, ⟨.Match, 10⟩, ⟨.SoftClip, 5⟩]

/-- Claim C8: for CIGAR 5S10M5S, `getSoftClip` returns 5 at each edge
and `getAlignmentLength` returns 10; in general the derived geometry's
left and right clips are the lengths of the leading and trailing
SoftClip ops when present, else 0. -/
theorem softclip_edges :
    (parseCigar ['5', 'S', '1', '0', 'M', '5', 'S'] = .ok cigar5S10M5S
      ∧ getSoftClip cigar5S10M5S .clipLeft = .ok 5
      ∧ getSoftClip cigar5S10M5S .clipRight = .ok 5
      ∧ getAlignmentLength cigar5S10M5S = 10)
    ∧ ∀ (ops : List CigarOp) (g : AlignmentGeometry) (rev : Bool),
        deriveGeometry ops rev = .ok g →
        g.leftClip = (ops.head?.map clipLen).getD 0
          ∧ g.rightClip = (ops.getLast?.map clipLen).getD 0 := by
  constructor
  · exact ⟨rfl, rfl, rfl, rfl⟩
  · intro ops g rev hg
    cases ops with
    | nil =>
      obtain rfl : (⟨0, 0, 0, rev⟩ : AlignmentGeometry) = g := by
        simpa [deriveGeometry] using hg
      constructor <;> rfl
    | cons first rest =>
      cases rest with
      | nil =>
        obtain rfl : (⟨refConsume first, clipLen first, clipLen first, rev⟩
            : AlignmentGeometry) = g := by
          simpa [deriveGeometry] using hg
        constructor <;> simp
      | cons b l2 =>
        have herr : deriveGeometry (first :: b :: l2) rev
            = (if (scanTail (b :: l2)).2
                then .ok ⟨referenceProjectedLength (first :: b :: l2), clipLen first,
                  (scanTail (b :: l2)).1, rev⟩
                else .error .InvalidCigarStructureError) := by
          simp [deriveGeometry]
        rw [herr] at hg
        by_cases hscan : (scanTail (b :: l2)).2 = true
        · rw [if_pos hscan] at hg
          obtain rfl : (⟨referenceProjectedLength (first :: b :: l2), clipLen first,
              (scanTail (b :: l2)).1, rev⟩ : AlignmentGeometry) = g := by
            simpa using hg
          refine ⟨by simp, ?_⟩
          rw [List.getLast?_cons_cons]
          exact scanTail_fst (b :: l2) (by simp)
        · rw [if_neg hscan] at hg
          exact absurd hg (by simp)

/-- Claim C8 (witness): the general clip law evaluated at CIGAR
5S10M5S, whose derived geometry is ⟨10, 5, 5, false⟩. -/
theorem softclip_edges_witness :
    AlignmentGeometry.leftClip ⟨10, 5, 5, false⟩
        = (cigar5S10M5S.head?.map clipLen).getD 0
      ∧ AlignmentGeometry.rightClip ⟨10, 5, 5, false⟩
        = (cigar5S10M5S.getLast?.map clipLen).getD 0 :=
  softclip_edges.2 cigar5S10M5S ⟨10, 5, 5, false⟩ false rfl

/-! ### Mate accessors -/

/-- Claim C9: `hasMate` is a total boolean query — it reports the
absence of a mate as `false` rather than failing — and whenever it
returns `false` every mate-specific accessor fails with
`MateNotResolvableError` instead of returning a default value. -/
theorem mate_accessors_fail_without_mate (a : Alignment)
    (lookupAlignment : List Char → Option Alignment) :
    (a.hasMate = false ↔ a.mate = none)
    ∧ (a.hasMate = false →
        a.getMateAlignmentId = .error .MateNotResolvableError
        ∧ a.getMateAlignment lookupAlignment = .error .MateNotResolvableError
        ∧ a.getMateReferenceSpec = .error .MateNotResolvableError
        ∧ a.getMateIsReversedOrientation = .error .MateNotResolvableError) := by
  constructor
  · rw [Alignment.hasMate]
    cases a.mate <;> simp
  · intro h
    have hnone : a.mate = none := by
      rw [Alignment.hasMate] at h
      cases hm : a.mate
      · rfl
      · rw [hm] at h
        exact absurd h (by simp)
    rw [Alignment.getMateAlignmentId, Alignment.getMateAlignment,
      Alignment.getMateReferenceSpec, Alignment.getMateIsReversedOrientation, hnone]
    exact ⟨rfl, rfl, rfl, rfl⟩

/-- A mate-less fixture. -/
def alnNoMate : Alignment where
  alignmentId := []
  referenceSpec := []
  referenceStartPos := 0
  mappingQuality := 0
  isReversed := false
  cigar := []
  fragmentPhredQualities := []
  mate := none

/-- Claim C9 (witness): the mate-less fixture has `hasMate = false` and
all four mate accessors fail on it. -/
theorem mate_accessors_fail_without_mate_witness :
    alnNoMate.getMateAlignmentId = .error .MateNotResolvableError
    ∧ alnNoMate.getMateAlignment (fun _ => none) = .error .MateNotResolvableError
    ∧ alnNoMate.getMateReferenceSpec = .error .MateNotResolvableError
    ∧ alnNoMate.getMateIsReversedOrientation = .error .MateNotResolvableError :=
  (mate_accessors_fail_without_mate alnNoMate (fun _ => none)).2 rfl

/-! ### Fragment quality encoding -/

/-- Claim C10: `getClippedFragmentQualities` returns phred quality
values encoded with an ASCII offset of 33: each returned character code
equals the record's phred score plus 33. -/
theorem clipped_qualities_offset33 (a : Alignment) (i : Nat)
    (hi : i < a.fragmentPhredQualities.length) :
    a.getClippedFragmentQualities.getD i 0
      = a.fragmentPhredQualities.getD i 0 + 33 := by
  rw [Alignment.getClippedFragmentQualities]
  rw [List.getD_eq_getElem?_getD, List.getD_eq_getElem?_getD, List.getElem?_map]
  rw [List.getElem?_eq_getElem hi]
  rfl

/-- A fixture carrying two phred scores. -/
def alnQual : Alignment where
  alignmentId := []
  referenceSpec := []
  referenceStartPos := 0
  mappingQuality := 0
  isReversed := false
  cigar := []
  fragmentPhredQualities := [30, 2]
  mate := none

/-- Claim C10 (witness): on the quality fixture, phred score 30 at
index 0 is returned as character code 63. -/
theorem clipped_qualities_offset33_witness :
    alnQual.getClippedFragmentQualities.getD 0 0
      = alnQual.fragmentPhredQualities.getD 0 0 + 33 :=
  clipped_qualities_offset33 alnQual 0 (by decide)

/-! ### CIGAR rendering and the parse round-trip -/

theorem digitChar_spec : ∀ d, d < 10 →
    (digitChar d).isDigit = true ∧ (digitChar d).toNat - 48 = d := by
  decide

theorem kindChar_spec : ∀ k, (kindToChar k).isDigit = false
    ∧ charToKind (kindToChar k) = some k := by
  intro k
  cases k <;> exact ⟨by decide, by decide⟩

theorem natDigits_head_digit (n : Nat) :
    ∃ c cs, natDigits n = c :: cs ∧ c.isDigit = true := by
  induction n using Nat.strong_induction_on with
  | _ n ih =>
    rw [natDigits]
    split
    · rename_i h
      exact ⟨digitChar n, [], rfl, (digitChar_spec n h).1⟩
    · rename_i h
      obtain ⟨c, cs, hcs, hdig⟩ := ih (n / 10) (Nat.div_lt_self (by omega) (by omega))
      exact ⟨c, cs ++ [digitChar (n % 10)], by rw [hcs]; rfl, hdig⟩

theorem parse_natDigits_pending (n : Nat) :
    ∀ (p : Nat) (rest : List Char) (acc : List CigarOp),
      parseCigarAux (natDigits n ++ rest) (some p) acc
        = parseCigarAux rest (some (p * 10 ^ (natDigits n).length + n)) acc := by
  induction n using Nat.strong_induction_on with
  | _ n ih =>
    intro p rest acc
    rw [natDigits]
    split
    · rename_i h
      rw [List.singleton_append, parseCigarAux, if_pos (digitChar_spec n h).1,
        (digitChar_spec n h).2]
      simp only [Option.getD_some, List.length_singleton]
      norm_num
    · rename_i h
      rw [List.append_assoc,
        ih (n / 10) (Nat.div_lt_self (by omega) (by omega)) p _ acc,
        List.singleton_append, parseCigarAux,
        if_pos (digitChar_spec (n % 10) (Nat.mod_lt n (by omega))).1,
        (digitChar_spec (n % 10) (Nat.mod_lt n (by omega))).2]
      simp only [Option.getD_some]
      congr 2
      rw [List.length_append, List.length_singleton]
      calc (p * 10 ^ (natDigits (n / 10)).length + n / 10) * 10 + n % 10
          = p * (10 ^ (natDigits (n / 10)).length * 10)
            + (10 * (n / 10) + n % 10) := by ring
        _ = p * 10 ^ ((natDigits (n / 10)).length + 1) + n := by
            rw [pow_succ]
            congr 1
            omega

theorem parse_natDigits_none (n : Nat) (rest : List Char) (acc : List CigarOp) :
    parseCigarAux (natDigits n ++ rest) none acc
      = parseCigarAux rest (some n) acc := by
  obtain ⟨c, cs, hcs, hdig⟩ := natDigits_head_digit n
  have h0 : parseCigarAux (natDigits n ++ rest) none acc
      = parseCigarAux (natDigits n ++ rest) (some 0) acc := by
    rw [hcs, List.cons_append, parseCigarAux, parseCigarAux, if_pos hdig, if_pos hdig]
    rfl
  rw [h0, parse_natDigits_pending n 0 rest acc]
  norm_num

theorem parse_renderOp (op : CigarOp) (rest : List Char) (acc : List CigarOp) :
    parseCigarAux (renderOp op ++ rest) none acc
      = parseCigarAux rest none (op :: acc) := by
  rw [renderOp, List.append_assoc, parse_natDigits_none, List.singleton_append,
    parseCigarAux, if_neg (by rw [(kindChar_spec op.kind).1]; simp),
    (kindChar_spec op.kind).2]
  rfl

theorem parse_renderCigar (ops : List CigarOp) (acc : List CigarOp) :
    parseCigarAux (renderCigar ops) none acc = .ok (acc.reverse ++ ops) := by
  induction ops generalizing acc with
  | nil => simp [renderCigar, parseCigarAux]
  | cons op rest ih =>
    rw [renderCigar, List.map_cons, List.flatten_cons, parse_renderOp, ← renderCigar,
      ih (op :: acc)]
    simp

theorem sum_mergeAdjacent (f : CigarOp → Nat)
    (hf : ∀ k l1 l2, f ⟨k, l1 + l2⟩ = f ⟨k, l1⟩ + f ⟨k, l2⟩) (ops : List CigarOp) :
    ((mergeAdjacent ops).map f).sum = (ops.map f).sum := by
  induction ops with
  | nil => rfl
  | cons op rest ih =>
    cases hm : mergeAdjacent rest with
    | nil =>
      have hstep : mergeAdjacent (op :: rest) = [op] := by
        rw [mergeAdjacent, hm]
      rw [hm] at ih
      rw [hstep]
      simp only [List.map_cons, List.sum_cons, List.map_nil, List.sum_nil] at ih ⊢
      omega
    | cons op2 merged =>
      have hstep : mergeAdjacent (op :: rest)
          = if op.kind = op2.kind
            then { kind := op.kind, length := op.length + op2.length } :: merged
            else op :: op2 :: merged := by
        rw [mergeAdjacent, hm]
      rw [hm] at ih
      rw [hstep]
      by_cases hkk : op.kind = op2.kind
      · rw [if_pos hkk]
        have hsplit : f ⟨op.kind, op.length + op2.length⟩ = f op + f op2 := by
          rw [hf op.kind op.length op2.length]
          congr 1
          rw [hkk]
        simp only [List.map_cons, List.sum_cons] at ih ⊢
        rw [hsplit]
        omega
      · rw [if_neg hkk]
        simp only [List.map_cons, List.sum_cons] at ih ⊢
        omega

theorem refSum_mergeAdjacent (ops : List CigarOp) :
    refSum (mergeAdjacent ops) = refSum ops := by
  apply sum_mergeAdjacent
  intro k l1 l2
  simp only [refConsume]
  split <;> simp

theorem readSum_mergeAdjacent (ops : List CigarOp) :
    readSum (mergeAdjacent ops) = readSum ops := by
  apply sum_mergeAdjacent
  intro k l1 l2
  simp only [readConsume]
  split <;> simp

/-- Claim C6: for every well-formed CIGAR string (one the parser
accepts), re-parsing the rendered text reproduces the op sequence: the
"long" form exactly, the "short" form up to merging of adjacent
same-kind runs (which preserves the reference/read consumption
semantics), and the clipped variants the same modulo omission of the
soft/hard-clip ops. -/
theorem cigar_render_roundtrip (s : List Char) (ops : List CigarOp)
    (_hparse : parseCigar s = .ok ops) :
    parseCigar (getLongCigar ops false) = .ok ops
    ∧ parseCigar (getShortCigar ops false) = .ok (mergeAdjacent ops)
    ∧ refSum (mergeAdjacent ops) = refSum ops
    ∧ readSum (mergeAdjacent ops) = readSum ops
    ∧ parseCigar (getLongCigar ops true) = .ok (dropClips ops)
    ∧ parseCigar (getShortCigar ops true) = .ok (mergeAdjacent (dropClips ops)) := by
  refine ⟨?_, ?_, refSum_mergeAdjacent ops, readSum_mergeAdjacent ops, ?_, ?_⟩
  · rw [getLongCigar, parseCigar, if_neg (by simp), parse_renderCigar]
    rfl
  · rw [getShortCigar, parseCigar, if_neg (by simp), parse_renderCigar]
    rfl
  · rw [getLongCigar, parseCigar, if_pos rfl, parse_renderCigar]
    rfl
  · rw [getShortCigar, parseCigar, if_pos rfl, parse_renderCigar]
    rfl

/-- Claim C6 (witness): the round-trip instantiated at the parsed
CIGAR 2M3I2M. -/
theorem cigar_render_roundtrip_witness :
    parseCigar (getLongCigar cigar2M3I2M false) = .ok cigar2M3I2M
    ∧ parseCigar (getShortCigar cigar2M3I2M false) = .ok (mergeAdjacent cigar2M3I2M)
    ∧ refSum (mergeAdjacent cigar2M3I2M) = refSum cigar2M3I2M
    ∧ readSum (mergeAdjacent cigar2M3I2M) = readSum cigar2M3I2M
    ∧ parseCigar (getLongCigar cigar2M3I2M true) = .ok (dropClips cigar2M3I2M)
    ∧ parseCigar (getShortCigar cigar2M3I2M true)
        = .ok (mergeAdjacent (dropClips cigar2M3I2M)) :=
  cigar_render_roundtrip ['2', 'M', '3', 'I', '2', 'M'] cigar2M3I2M rfl

end ngs
